import Mathlib

/-!
Verification of the hello-gopher greeting/proverb service and its CLI
dispatcher, shallowly embedded from the Go sources
(`pkg/greeting/greeting.go`, `pkg/greeting/proverb.go`,
`cmd/hello-gopher/cmd/{errors,greet,root,version,proverb}.go`).

Go strings are modelled as Lean `String`, `nil`-able errors as `Option`,
fallible operations as `Except`, and the mutable `Service` receiver as
explicit state passing.  `rand.Intn(n)` is modelled by an arbitrary
natural number reduced modulo `n`.
-/

namespace GoPher

/-- Go's `unicode.IsSpace`, restricted to the code points it accepts
(Latin-1 white space and the Unicode `White_Space` property). -/
def goIsSpace (c : Char) : Bool :=
  c = ' ' || c = '\t' || c = '\n' || c = '\x0b' || c = '\x0c' || c = '\r' ||
  c = '\x85' || c = '\xa0' || c = ' ' ||
  (' ' ≤ c && c ≤ ' ') ||
  c = ' ' || c = ' ' || c = ' ' || c = ' ' || c = '　'

/-- Trim characters satisfying `P` from both ends of a list. -/
def trimList (P : Char → Bool) (l : List Char) : List Char :=
  ((l.dropWhile P).reverse.dropWhile P).reverse

/-- Go's `strings.TrimSpace`. -/
def goTrimSpace (s : String) : String :=
  ⟨trimList goIsSpace s.toList⟩

/-- Accumulator loop for `splitOnChar`: `cur` is the current field in
reverse, `acc` the finished fields in reverse. -/
def splitOnCharAux (c : Char) : List Char → List Char → List (List Char) → List (List Char)
  | [], cur, acc => (cur.reverse :: acc).reverse
  | x :: xs, cur, acc =>
    if x = c then splitOnCharAux c xs [] (cur.reverse :: acc)
    else splitOnCharAux c xs (x :: cur) acc

/-- Split a character list at every occurrence of `c`; the empty list
yields one empty field, matching Go's `strings.Split` for a one-rune
separator (which walks the string appending each field to a slice). -/
def splitOnChar (c : Char) (l : List Char) : List (List Char) :=
  splitOnCharAux c l [] []

/-- Go's `strings.Split(s, "\n")` (on the empty string it yields
`[""]`). -/
def goSplitNewline (s : String) : List String :=
  (splitOnChar '\n' s.toList).map String.mk

/-- Go's `strings.HasPrefix(s, p)`. -/
def goStartsWith (s p : String) : Bool :=
  p.toList.isPrefixOf s.toList

/-- The greeting `Service` (`pkg/greeting/greeting.go`): its only state is
the slice of loaded proverbs. -/
structure Service where
  proverbs : List String
  deriving Repr, DecidableEq

/-- `greeting.NewService()`. -/
def NewService : Service := ⟨[]⟩

/-- `Service.Greet` (`greeting.go`): empty names fall back to `"Gopher"`,
then the result is `fmt.Sprintf("Hello, %s!", name)`. -/
def Greet (name : String) : String :=
  let n := if name = "" then "Gopher" else name
  "Hello, " ++ n ++ "!"

/-- The line-filtering loop of `Service.LoadProverbs` (`proverb.go`):
split the trimmed resource on newlines, trim each line, and keep those
that are non-empty and do not start with `"#"`. -/
def parseProverbs (data : String) : List String :=
  (goSplitNewline (goTrimSpace data)).foldl
    (fun acc line =>
      let l := goTrimSpace line
      if l ≠ "" ∧ ¬ goStartsWith l "#" then acc ++ [l] else acc)
    []

/-- `Service.LoadProverbs` (`proverb.go`), with the embedded resource
`proverbData` passed explicitly.  Returns the Go error message (`none`
for `nil`) together with the updated service state; note that in the
"no valid proverbs" case the receiver's slice has already been replaced
by the empty result before the error is returned. -/
def LoadProverbs (proverbData : String) (s : Service) : Option String × Service :=
  if proverbData = "" then
    (some "embedded proverb data is empty", s)
  else
    let ps := parseProverbs proverbData
    if ps = [] then
      (some "no valid proverbs found in embedded data", { s with proverbs := ps })
    else
      (none, { s with proverbs := ps })

/-- `Service.RandomProverb` (`proverb.go`): auto-loads when the set is
empty, turns a load failure into the string
`"Error loading proverbs: " ++ err`, keeps a fallback literal for an
empty set, and otherwise selects the proverb at the random index
(modelled as `idx % length`). -/
def RandomProverb (proverbData : String) (s : Service) (idx : Nat) : String × Service :=
  let step : (String × Service) ⊕ Service :=
    if s.proverbs.length = 0 then
      match LoadProverbs proverbData s with
      | (some e, s1) => Sum.inl ("Error loading proverbs: " ++ e, s1)
      | (none, s1) => Sum.inr s1
    else Sum.inr s
  match step with
  | Sum.inl r => r
  | Sum.inr s1 =>
    if s1.proverbs.length = 0 then ("No proverbs available", s1)
    else (s1.proverbs.getD (idx % s1.proverbs.length) "", s1)

/-- Which `return` statement of `Service.RandomProverb` produced the
result. -/
inductive RPBranch where
  | loadError
  | noProverbs
  | selected
  deriving Repr, DecidableEq

/-- The branch taken by `Service.RandomProverb`, following the same
control flow as `RandomProverb`. -/
def randomProverbBranch (proverbData : String) (s : Service) : RPBranch :=
  let step : (String × Service) ⊕ Service :=
    if s.proverbs.length = 0 then
      match LoadProverbs proverbData s with
      | (some e, s1) => Sum.inl ("Error loading proverbs: " ++ e, s1)
      | (none, s1) => Sum.inr s1
    else Sum.inr s
  match step with
  | Sum.inl _ => RPBranch.loadError
  | Sum.inr s1 =>
    if s1.proverbs.length = 0 then RPBranch.noProverbs
    else RPBranch.selected

/-- A service state that can actually occur in the program: the fresh
state from `NewService`, or the state left by some `LoadProverbs` call
(whose slice is the parse of the resource it was given). -/
def Reachable (s : Service) : Prop :=
  s.proverbs = [] ∨ ∃ d : String, s.proverbs = parseProverbs d

/-- The states the service can be in when only a fixed resource `data`
is ever loaded (as in the real program, where the resource is the
embedded `proverb.txt`). -/
def ReachableWith (data : String) (s : Service) : Prop :=
  s.proverbs = [] ∨ s.proverbs = parseProverbs data

/-- One line is kept by the `LoadProverbs` loop exactly when its trim is
non-empty and does not start with `"#"`. -/
def lineKeep (line : String) : Option String :=
  let l := goTrimSpace line
  if l ≠ "" ∧ ¬ goStartsWith l "#" then some l else none

/-- Modelled from the spec: the embedded resource `proverb.txt` is not
among the provided sources (only its loader and tests are), so its
content is modelled after §3 and §6 of the specification: a
newline-delimited text of Go proverbs with a leading `#` comment line
and at least 50 valid (non-comment, non-blank) entries. -/
def proverbDataModel : String :=
  "# Go Proverbs and related Go wisdom\nDo not communicate by sharing memory, share memory by communicating.\nConcurrency is not parallelism.\nChannels orchestrate; mutexes serialize.\nThe bigger the interface, the weaker the abstraction.\nMake the zero value useful.\nThe empty interface says nothing.\nGofmt's style is no one's favorite, yet gofmt is everyone's favorite.\nA little copying is better than a little dependency.\nSyscall must always be guarded with build tags.\nCgo must always be guarded with build tags.\nCgo is not Go.\nWith the unsafe package there are no guarantees.\nClear is better than clever.\nReflection is never clear.\nErrors are values.\nDo not just check errors, handle them gracefully.\nDesign the architecture, name the components, document the details.\nDocumentation is for users.\nDo not panic.\nAccept interfaces, return structs.\nThe happy path is left-aligned.\nErrors should be wrapped with context.\nKeep interfaces small and focused.\nComposition over inheritance.\nExplicit is better than implicit.\nReadability counts in code reviews.\nBenchmarks before optimization.\nProfile before you optimize.\nZero values make APIs simpler.\nGoroutines are cheap but not free.\nAlways close what you open.\nDefer for cleanup, not for logic.\nContext should flow through your program.\nPackage names should be short and clear.\nAvoid package level state.\nTest behavior, not implementation.\nTable driven tests scale well.\nName your test cases clearly.\nReturn early to reduce nesting.\nSmall functions are easier to test.\nExported names need documentation.\nVendor your dependencies wisely.\nUse the standard library first.\nSimplicity is the ultimate sophistication.\nReadable code is maintainable code.\nVersion your APIs carefully.\nBuild tags control compilation.\nInterfaces belong to the consumer.\nChannels of channels are powerful.\nSelect enables multiplexing.\nBuffered channels decouple producers and consumers.\nRace conditions hide in shared state.\n"

/-! ### CLI error taxonomy (`cmd/hello-gopher/cmd/errors.go`) -/

/-- Exit code constants from `errors.go`. -/
def ExitSuccess : Nat := 0

/-- Exit code for usage errors. -/
def ExitUsageError : Nat := 1

/-- Exit code for data errors. -/
def ExitDataError : Nat := 2

/-- Exit code for system errors. -/
def ExitSystemError : Nat := 3

/-- `CLIError` from `errors.go`; the wrapped `Cause` is modelled by its
rendered message. -/
structure CLIError where
  code : Nat
  message : String
  cause : Option String
  suggestion : String
  deriving Repr, DecidableEq

/-- A Go `error` value as seen by `HandleError`: either a `*CLIError` or
some other error (modelled by its rendered message). -/
inductive GoError where
  | cli : CLIError → GoError
  | other : String → GoError
  deriving Repr, DecidableEq

/-- `NewUsageError` (`errors.go`). -/
def NewUsageError (message suggestion : String) : CLIError :=
  { code := ExitUsageError, message := message, cause := none, suggestion := suggestion }

/-- `NewDataError` (`errors.go`). -/
def NewDataError (message : String) (cause : Option String) (suggestion : String) : CLIError :=
  { code := ExitDataError, message := message, cause := cause, suggestion := suggestion }

/-- `NewSystemError` (`errors.go`). -/
def NewSystemError (message : String) (cause : Option String) (suggestion : String) : CLIError :=
  { code := ExitSystemError, message := message, cause := cause, suggestion := suggestion }

/-- `CLIError.Error()` (`errors.go`): appends `"\nSuggestion: ..."` only
when a suggestion is present. -/
def CLIError.errorText (e : CLIError) : String :=
  if e.suggestion ≠ "" then e.message ++ "\nSuggestion: " ++ e.suggestion
  else e.message

/-- The exit code `HandleError` passes to `os.Exit` (`errors.go`):
a `*CLIError` exits with its own code, anything else with
`ExitSystemError`. -/
def handleErrorCode : GoError → Nat
  | GoError.cli e => e.code
  | GoError.other _ => ExitSystemError

/-- What `HandleError` writes to standard error (`errors.go`):
`fmt.Fprintf(os.Stderr, "Error: %s\n", cliErr.Error())` for a
`*CLIError`, `fmt.Fprintf(os.Stderr, "Error: %v\n", err)` otherwise. -/
def handleErrorStderr : GoError → String
  | GoError.cli e => "Error: " ++ e.errorText ++ "\n"
  | GoError.other msg => "Error: " ++ msg ++ "\n"

/-- The process exit code of one whole run: `Execute` calls
`HandleError` only on a non-`nil` error; otherwise the process
terminates normally with status 0 (`root.go`, `errors.go`). -/
def processExitCode : Option GoError → Nat
  | none => ExitSuccess
  | some e => handleErrorCode e

/-! ### Command handlers (`greet.go`, `root.go`, `version.go`) -/

/-- Go's `fmt.Sprintf("%v", args)` rendering of a `[]string`. -/
def goFormatStrSlice (args : List String) : String :=
  "[" ++ String.intercalate " " args ++ "]"

/-- `greetCmd.RunE` (`greet.go`).  `nameFlag` is the result of
`cmd.Flags().GetString("name")`; a successful run returns the line
written to standard output, a failing run returns the classified error
and writes nothing. -/
def greetRunE (nameFlag : Except String String) (args : List String) :
    Except CLIError String :=
  match nameFlag with
  | Except.error _ =>
    Except.error (NewSystemError "Failed to parse command flags" none
      "Try running 'hello-gopher greet --help' for usage information")
  | Except.ok name =>
    if args.length > 0 then
      Except.error (NewUsageError ("Unexpected argument(s): " ++ goFormatStrSlice args)
        "The greet command doesn't accept positional arguments. Use --name flag instead")
    else
      Except.ok (Greet name)

/-- Build-time metadata used by the version output: version string,
build date, git commit (ldflags-injected, `root.go`), plus the values of
`runtime.Version()`, `runtime.GOOS`, `runtime.GOARCH`. -/
structure BuildInfo where
  version : String
  buildDate : String
  gitCommit : String
  goVersion : String
  goos : String
  goarch : String
  deriving Repr, DecidableEq

/-- The lines printed by `versionCmd.Run` (`version.go`), in order. -/
def versionCmdLines (b : BuildInfo) : List String :=
  [ "hello-gopher version " ++ b.version
  , "Build date: " ++ b.buildDate
  , "Git commit: " ++ b.gitCommit
  , "Go version: " ++ b.goVersion
  , "OS/Arch: " ++ b.goos ++ "/" ++ b.goarch ]

/-- The lines printed by the `--version` branch of `rootCmd.RunE`
(`root.go`), in order. -/
def rootVersionFlagLines (b : BuildInfo) : List String :=
  [ "hello-gopher version " ++ b.version
  , "Build date: " ++ b.buildDate
  , "Git commit: " ++ b.gitCommit
  , "Go version: " ++ b.goVersion
  , "OS/Arch: " ++ b.goos ++ "/" ++ b.goarch ]

/-- What `rootCmd.RunE` produces on standard output (`root.go`):
with the version flag set it prints the version block; with positional
arguments it fails with a usage error; otherwise it shows the help
text. -/
inductive RootOutput where
  | lines : List String → RootOutput
  | help : RootOutput
  deriving Repr, DecidableEq

/-- `rootCmd.RunE` (`root.go`). -/
def rootRunE (b : BuildInfo) (versionFlag : Bool) (args : List String) :
    Except CLIError RootOutput :=
  if versionFlag then
    Except.ok (RootOutput.lines (rootVersionFlagLines b))
  else if args.length > 0 then
    Except.error (NewUsageError ("Unknown command: " ++ args.headD "")
      "Run 'hello-gopher --help' to see available commands")
  else
    Except.ok RootOutput.help

/-! ### Helper lemmas -/

theorem trimList_eq_rdropWhile (P : Char → Bool) (l : List Char) :
    trimList P l = List.rdropWhile P (List.dropWhile P l) := rfl

theorem dropWhile_eq_cons_self {P : Char → Bool} {c : Char} {y : List Char}
    (h : List.dropWhile P (c :: y) = c :: y) : P c = false := by
  by_contra hc
  have hpc : P c = true := by simpa using hc
  rw [List.dropWhile_cons, if_pos hpc] at h
  have hle : (List.dropWhile P y).length ≤ y.length :=
    (List.dropWhile_sublist P).length_le
  have := congrArg List.length h
  simp only [List.length_cons] at this
  omega

theorem trimList_trimList (P : Char → Bool) (l : List Char) :
    trimList P (trimList P l) = trimList P l := by
  rw [trimList_eq_rdropWhile, trimList_eq_rdropWhile]
  set x := List.dropWhile P l with hx
  have hxd : List.dropWhile P x = x := List.dropWhile_idempotent P l
  have hdrop : List.dropWhile P (List.rdropWhile P x) = List.rdropWhile P x := by
    cases hm : List.rdropWhile P x with
    | nil => rfl
    | cons c r =>
      obtain ⟨t, ht⟩ := List.rdropWhile_prefix P x
      rw [hm] at ht
      have hx' : x = c :: (r ++ t) := by rw [← ht]; rfl
      rw [hx'] at hxd
      have hPc : P c = false := dropWhile_eq_cons_self hxd
      rw [List.dropWhile_cons, if_neg (by simp [hPc])]
  rw [hdrop, List.rdropWhile_idempotent]

theorem goTrimSpace_idem (s : String) :
    goTrimSpace (goTrimSpace s) = goTrimSpace s := by
  unfold goTrimSpace
  exact congrArg String.mk (trimList_trimList goIsSpace s.toList)

theorem goTrimSpace_empty_iff (s : String) :
    goTrimSpace s = "" ↔ trimList goIsSpace s.toList = [] := by
  unfold goTrimSpace
  constructor
  · intro h
    exact congrArg String.data h
  · intro h
    rw [h]

theorem parse_foldl_eq_filterMap (lines acc : List String) :
    lines.foldl
      (fun acc line =>
        let l := goTrimSpace line
        if l ≠ "" ∧ ¬ goStartsWith l "#" then acc ++ [l] else acc)
      acc
    = acc ++ lines.filterMap lineKeep := by
  induction lines generalizing acc with
  | nil => simp
  | cons h t ih =>
    simp only [List.foldl_cons, List.filterMap_cons]
    by_cases hc : goTrimSpace h ≠ "" ∧ ¬ goStartsWith (goTrimSpace h) "#"
    · rw [if_pos hc, ih]
      simp [lineKeep, hc]
    · rw [if_neg hc, ih]
      simp only [lineKeep, if_neg hc]

theorem parseProverbs_eq_filterMap (data : String) :
    parseProverbs data = (goSplitNewline (goTrimSpace data)).filterMap lineKeep := by
  unfold parseProverbs
  rw [parse_foldl_eq_filterMap]
  simp

theorem lineKeep_eq_some {line p : String} (h : lineKeep line = some p) :
    p = goTrimSpace line ∧ p ≠ "" ∧ ¬ goStartsWith p "#" := by
  unfold lineKeep at h
  by_cases hc : goTrimSpace line ≠ "" ∧ ¬ goStartsWith (goTrimSpace line) "#"
  · rw [if_pos hc] at h
    cases h
    exact ⟨rfl, hc⟩
  · rw [if_neg hc] at h
    cases h

theorem mem_parseProverbs {data p : String} (h : p ∈ parseProverbs data) :
    goTrimSpace p = p ∧ p ≠ "" ∧ ¬ goStartsWith p "#" := by
  rw [parseProverbs_eq_filterMap] at h
  obtain ⟨line, _, hk⟩ := List.mem_filterMap.mp h
  obtain ⟨hp, hne, hpre⟩ := lineKeep_eq_some hk
  refine ⟨?_, hne, hpre⟩
  rw [hp, goTrimSpace_idem]

theorem LoadProverbs_fst_none_iff (data : String) (s : Service) :
    (LoadProverbs data s).fst = none ↔ (data ≠ "" ∧ parseProverbs data ≠ []) := by
  by_cases h1 : data = "" <;> by_cases h2 : parseProverbs data = [] <;>
    simp [LoadProverbs, h1, h2]

theorem LoadProverbs_snd_of_ne (data : String) (s : Service) (h : data ≠ "") :
    (LoadProverbs data s).snd.proverbs = parseProverbs data := by
  by_cases h2 : parseProverbs data = [] <;> simp [LoadProverbs, h, h2]

theorem LoadProverbs_success (data : String) (s : Service)
    (h : (LoadProverbs data s).fst = none) :
    (LoadProverbs data s).snd.proverbs = parseProverbs data ∧ parseProverbs data ≠ [] := by
  obtain ⟨h1, h2⟩ := (LoadProverbs_fst_none_iff data s).mp h
  exact ⟨LoadProverbs_snd_of_ne data s h1, h2⟩

theorem getD_mod_mem {l : List String} (h : l ≠ []) (i : Nat) :
    l.getD (i % l.length) "" ∈ l := by
  have hlen : i % l.length < l.length := Nat.mod_lt _ (List.length_pos.mpr h)
  rw [List.getD_eq_getElem?_getD, List.getElem?_eq_getElem hlen]
  exact List.getElem_mem hlen

theorem append_left_ne_empty {a : String} (b : String) (h : a ≠ "") :
    a ++ b ≠ "" := by
  intro hc
  apply h
  have hd : a.data ++ b.data = [] := by
    have := congrArg String.data hc
    simpa using this
  have : a.data = [] := (List.append_eq_nil.mp hd).1
  cases a
  simp_all

/-! ### Claim theorems -/

/-- C2: `Greet(name)` returns `"Hello, Gopher!"` for the empty name and
`"Hello, " ++ name ++ "!"` for every non-empty name; it never fails
(total function into `String`). -/
theorem greet_spec (name : String) :
    Greet name = if name = "" then "Hello, Gopher!" else "Hello, " ++ name ++ "!" := by
  unfold Greet
  by_cases h : name = "" <;> simp [h]

/-- C3: `LoadProverbs` fails exactly when the bundled resource is the
empty string or filters down to zero valid lines; with at least one
valid line it succeeds. -/
theorem loadProverbs_fails_iff (data : String) (s : Service) :
    ((LoadProverbs data s).fst ≠ none ↔ (data = "" ∨ parseProverbs data = [])) ∧
    (parseProverbs data ≠ [] → (LoadProverbs data s).fst = none) := by
  constructor
  · rw [Ne, LoadProverbs_fst_none_iff]
    tauto
  · intro hp
    rw [LoadProverbs_fst_none_iff]
    refine ⟨?_, hp⟩
    intro hd
    apply hp
    rw [hd]
    decide

/-- Witness for C3 at a concrete resource with one valid line. -/
theorem loadProverbs_fails_iff_witness :
    parseProverbs "Errors are values" ≠ [] ∧
    (LoadProverbs "Errors are values" NewService).fst = none :=
  ⟨by decide, (loadProverbs_fails_iff "Errors are values" NewService).2 (by decide)⟩

/-- C4: after every successful `LoadProverbs`, the proverb slice is
non-empty and each entry is non-empty after trimming and does not start
with `"#"`. -/
theorem loadProverbs_success_invariant (data : String) (s : Service)
    (h : (LoadProverbs data s).fst = none) :
    (LoadProverbs data s).snd.proverbs ≠ [] ∧
    ∀ p ∈ (LoadProverbs data s).snd.proverbs,
      goTrimSpace p ≠ "" ∧ ¬ goStartsWith p "#" := by
  obtain ⟨hsnd, hne⟩ := LoadProverbs_success data s h
  rw [hsnd]
  refine ⟨hne, ?_⟩
  intro p hp
  obtain ⟨ht, hne', hpre⟩ := mem_parseProverbs hp
  refine ⟨?_, hpre⟩
  rw [ht]
  exact hne'

/-- Witness for C4 at a concrete resource. -/
theorem loadProverbs_success_invariant_witness :
    (LoadProverbs "Errors are values\n# comment" NewService).fst = none ∧
    ((LoadProverbs "Errors are values\n# comment" NewService).snd.proverbs ≠ [] ∧
      ∀ p ∈ (LoadProverbs "Errors are values\n# comment" NewService).snd.proverbs,
        goTrimSpace p ≠ "" ∧ ¬ goStartsWith p "#") :=
  ⟨by decide,
    loadProverbs_success_invariant "Errors are values\n# comment" NewService (by decide)⟩

/-- C5: the top-level handler maps the taxonomy to fixed exit codes:
success 0, usage 1, data 2, system 3, and any unclassified error 3. -/
theorem exit_code_mapping :
    processExitCode none = 0 ∧
    (∀ m sg, processExitCode (some (GoError.cli (NewUsageError m sg))) = 1) ∧
    (∀ m c sg, processExitCode (some (GoError.cli (NewDataError m c sg))) = 2) ∧
    (∀ m c sg, processExitCode (some (GoError.cli (NewSystemError m c sg))) = 3) ∧
    (∀ msg, processExitCode (some (GoError.other msg)) = 3) :=
  ⟨rfl, fun _ _ => rfl, fun _ _ _ => rfl, fun _ _ _ => rfl, fun _ => rfl⟩

/-- C6: `LoadProverbs` is idempotent for an unchanged resource: a second
call returns the same outcome and leaves an identical proverb set (in
particular, one of equal size). -/
theorem loadProverbs_idempotent (data : String) (s : Service) :
    LoadProverbs data (LoadProverbs data s).snd = LoadProverbs data s ∧
    (LoadProverbs data (LoadProverbs data s).snd).snd.proverbs.length
      = (LoadProverbs data s).snd.proverbs.length := by
  have h : LoadProverbs data (LoadProverbs data s).snd = LoadProverbs data s := by
    by_cases h1 : data = "" <;> by_cases h2 : parseProverbs data = [] <;>
      simp [LoadProverbs, h1, h2]
  exact ⟨h, by rw [h]⟩

/-- C8: the top-level handler's standard-error output is
`"Error: <message>\nSuggestion: <suggestion>"` when a suggestion is
present and `"Error: <message>"` otherwise (each followed by the
`Fprintf` newline). -/
theorem handleError_stderr_format (e : CLIError) (msg : String) :
    (handleErrorStderr (GoError.cli e)
      = if e.suggestion = "" then "Error: " ++ e.message ++ "\n"
        else "Error: " ++ e.message ++ "\nSuggestion: " ++ e.suggestion ++ "\n") ∧
    handleErrorStderr (GoError.other msg) = "Error: " ++ msg ++ "\n" := by
  refine ⟨?_, rfl⟩
  unfold handleErrorStderr CLIError.errorText
  by_cases h : e.suggestion = "" <;> simp [h, String.append_assoc]

/-- C7: invoking the greet command with positional arguments yields the
usage error (exit code 1) suggesting that the greet command doesn't
accept positional arguments, and no greeting is produced. -/
theorem greetCmd_rejects_positional_args (name : String) (args : List String)
    (h : args ≠ []) :
    greetRunE (Except.ok name) args
      = Except.error (NewUsageError
          ("Unexpected argument(s): " ++ goFormatStrSlice args)
          "The greet command doesn't accept positional arguments. Use --name flag instead") ∧
    (NewUsageError ("Unexpected argument(s): " ++ goFormatStrSlice args)
        "The greet command doesn't accept positional arguments. Use --name flag instead").code
      = ExitUsageError ∧
    ∀ out : String, greetRunE (Except.ok name) args ≠ Except.ok out := by
  have hlen : args.length > 0 := List.length_pos.mpr h
  have hrun : greetRunE (Except.ok name) args
      = Except.error (NewUsageError
          ("Unexpected argument(s): " ++ goFormatStrSlice args)
          "The greet command doesn't accept positional arguments. Use --name flag instead") := by
    simp [greetRunE, hlen]
  refine ⟨hrun, rfl, ?_⟩
  intro out hc
  rw [hrun] at hc
  exact Except.noConfusion hc

/-- Witness for C7: `greet extra-arg`. -/
theorem greetCmd_rejects_positional_args_witness :
    (["extra-arg"] : List String) ≠ [] ∧
    (greetRunE (Except.ok "") ["extra-arg"]
        = Except.error (NewUsageError
            ("Unexpected argument(s): " ++ goFormatStrSlice ["extra-arg"])
            "The greet command doesn't accept positional arguments. Use --name flag instead") ∧
      (NewUsageError ("Unexpected argument(s): " ++ goFormatStrSlice ["extra-arg"])
          "The greet command doesn't accept positional arguments. Use --name flag instead").code
        = ExitUsageError ∧
      ∀ out : String, greetRunE (Except.ok "") ["extra-arg"] ≠ Except.ok out) :=
  ⟨by decide, greetCmd_rejects_positional_args "" ["extra-arg"] (by decide)⟩

theorem RandomProverb_of_loaded (data : String) (s : Service) (idx : Nat)
    (h : s.proverbs ≠ []) :
    RandomProverb data s idx = (s.proverbs.getD (idx % s.proverbs.length) "", s) := by
  have hlen : ¬ s.proverbs.length = 0 := by
    simpa [List.length_eq_zero] using h
  simp [RandomProverb, hlen]

theorem RandomProverb_of_empty_err (data : String) (s : Service) (idx : Nat)
    (e : String) (s1 : Service) (hp : s.proverbs = [])
    (hl : LoadProverbs data s = (some e, s1)) :
    RandomProverb data s idx = ("Error loading proverbs: " ++ e, s1) := by
  simp [RandomProverb, hp, hl]

theorem RandomProverb_of_empty_ok (data : String) (s : Service) (idx : Nat)
    (s1 : Service) (hp : s.proverbs = [])
    (hl : LoadProverbs data s = (none, s1)) (h1 : s1.proverbs ≠ []) :
    RandomProverb data s idx = (s1.proverbs.getD (idx % s1.proverbs.length) "", s1) := by
  simp [RandomProverb, hp, hl, h1]

/-- C1: `RandomProverb` always returns a string, never an error: with a
non-empty set it returns a member of it; with an empty set it auto-loads
and returns a member of the freshly loaded set, or the sentinel failure
string when the load fails; the result is never empty on any reachable
state. -/
theorem randomProverb_contract (data : String) (s : Service) (idx : Nat)
    (hs : Reachable s) :
    (s.proverbs ≠ [] →
        (RandomProverb data s idx).fst ∈ s.proverbs) ∧
    (s.proverbs = [] → (LoadProverbs data s).fst = none →
        (RandomProverb data s idx).fst ∈ (LoadProverbs data s).snd.proverbs) ∧
    (s.proverbs = [] → ∀ e, (LoadProverbs data s).fst = some e →
        (RandomProverb data s idx).fst = "Error loading proverbs: " ++ e) ∧
    (RandomProverb data s idx).fst ≠ "" := by
  by_cases hp : s.proverbs = []
  · cases hfst : (LoadProverbs data s).fst with
    | some e =>
      have hl : LoadProverbs data s = (some e, (LoadProverbs data s).snd) := by
        rw [← hfst]
      have hr : RandomProverb data s idx
          = ("Error loading proverbs: " ++ e, (LoadProverbs data s).snd) :=
        RandomProverb_of_empty_err data s idx e _ hp hl
      refine ⟨fun hc => absurd hp hc, ?_, ?_, ?_⟩
      · intro _ hnone
        exact Option.noConfusion hnone
      · intro _ e' he'
        cases he'
        rw [hr]
      · rw [hr]
        exact append_left_ne_empty e (by decide)
    | none =>
      obtain ⟨hs1, hne⟩ := LoadProverbs_success data s hfst
      have hl : LoadProverbs data s = (none, (LoadProverbs data s).snd) := by
        rw [← hfst]
      have hlen1 : (LoadProverbs data s).snd.proverbs ≠ [] := by
        rw [hs1]
        exact hne
      have hr : RandomProverb data s idx
          = ((LoadProverbs data s).snd.proverbs.getD
              (idx % (LoadProverbs data s).snd.proverbs.length) "",
             (LoadProverbs data s).snd) :=
        RandomProverb_of_empty_ok data s idx _ hp hl hlen1
      have hmem : (RandomProverb data s idx).fst ∈ (LoadProverbs data s).snd.proverbs := by
        rw [hr]
        exact getD_mod_mem hlen1 idx
      refine ⟨fun hc => absurd hp hc, fun _ _ => hmem, ?_, ?_⟩
      · intro _ e' he'
        exact Option.noConfusion he'
      · rw [hs1] at hmem
        exact (mem_parseProverbs hmem).2.1
  · have hr : RandomProverb data s idx
        = (s.proverbs.getD (idx % s.proverbs.length) "", s) :=
      RandomProverb_of_loaded data s idx hp
    have hmem : (RandomProverb data s idx).fst ∈ s.proverbs := by
      rw [hr]
      exact getD_mod_mem hp idx
    refine ⟨fun _ => hmem, fun hc => absurd hc hp, fun hc => absurd hc hp, ?_⟩
    rcases hs with hs | ⟨d, hd⟩
    · exact absurd hs hp
    · rw [hd] at hmem
      exact (mem_parseProverbs hmem).2.1

/-- Witness for C1 on the fresh service with a one-line resource. -/
theorem randomProverb_contract_witness :
    Reachable NewService ∧
    ((NewService.proverbs ≠ [] →
        (RandomProverb "Errors are values" NewService 0).fst ∈ NewService.proverbs) ∧
      (NewService.proverbs = [] →
          (LoadProverbs "Errors are values" NewService).fst = none →
          (RandomProverb "Errors are values" NewService 0).fst
            ∈ (LoadProverbs "Errors are values" NewService).snd.proverbs) ∧
      (NewService.proverbs = [] → ∀ e,
          (LoadProverbs "Errors are values" NewService).fst = some e →
          (RandomProverb "Errors are values" NewService 0).fst
            = "Error loading proverbs: " ++ e) ∧
      (RandomProverb "Errors are values" NewService 0).fst ≠ "") :=
  ⟨Or.inl rfl, randomProverb_contract "Errors are values" NewService 0 (Or.inl rfl)⟩

/-- C9: the `version` subcommand and the root `--version` flag print the
same five lines, and both always succeed. -/
theorem version_outputs_agree (b : BuildInfo) (args : List String) :
    rootRunE b true args = Except.ok (RootOutput.lines (versionCmdLines b)) ∧
    (versionCmdLines b).length = 5 ∧
    rootVersionFlagLines b = versionCmdLines b :=
  ⟨rfl, rfl, rfl⟩

theorem randomProverbBranch_of_loaded (data : String) (s : Service)
    (h : s.proverbs ≠ []) :
    randomProverbBranch data s = RPBranch.selected := by
  have hlen : ¬ s.proverbs.length = 0 := by
    simpa [List.length_eq_zero] using h
  simp [randomProverbBranch, hlen]

theorem randomProverbBranch_of_empty_err (data : String) (s : Service)
    (e : String) (s1 : Service) (hp : s.proverbs = [])
    (hl : LoadProverbs data s = (some e, s1)) :
    randomProverbBranch data s = RPBranch.loadError := by
  simp [randomProverbBranch, hp, hl]

theorem randomProverbBranch_of_empty_ok (data : String) (s : Service)
    (s1 : Service) (hp : s.proverbs = [])
    (hl : LoadProverbs data s = (none, s1)) (h1 : s1.proverbs ≠ []) :
    randomProverbBranch data s = RPBranch.selected := by
  simp [randomProverbBranch, hp, hl, h1]

set_option maxRecDepth 100000 in
/-- C10: the `"No proverbs available"` fallback of `RandomProverb` is
dead code: a successful load always leaves a non-empty set, so the
fallback branch is never taken, and with the (spec-modelled) embedded
resource `RandomProverb` never returns that string on any reachable
state. -/
theorem randomProverb_fallback_unreachable (data : String) (s : Service) (idx : Nat) :
    ((LoadProverbs data s).fst = none → (LoadProverbs data s).snd.proverbs ≠ []) ∧
    randomProverbBranch data s ≠ RPBranch.noProverbs ∧
    (ReachableWith proverbDataModel s →
      (RandomProverb proverbDataModel s idx).fst ≠ "No proverbs available") := by
  have hbranch : ∀ d : String, ∀ t : Service,
      randomProverbBranch d t ≠ RPBranch.noProverbs := by
    intro d t
    by_cases hp : t.proverbs = []
    · cases hfst : (LoadProverbs d t).fst with
      | some e =>
        rw [randomProverbBranch_of_empty_err d t e _ hp (by rw [← hfst])]
        decide
      | none =>
        obtain ⟨hs1, hne⟩ := LoadProverbs_success d t hfst
        rw [randomProverbBranch_of_empty_ok d t _ hp (by rw [← hfst])
          (by rw [hs1]; exact hne)]
        decide
    · rw [randomProverbBranch_of_loaded d t hp]
      decide
  refine ⟨?_, hbranch data s, ?_⟩
  · intro h
    obtain ⟨ha, hb⟩ := LoadProverbs_success data s h
    rw [ha]
    exact hb
  · intro hs
    have hsent : "No proverbs available" ∉ parseProverbs proverbDataModel := by decide
    have hparse_ne : parseProverbs proverbDataModel ≠ [] := by decide
    have hmod_ne : proverbDataModel ≠ "" := by decide
    rcases hs with hp | hm
    · have hfst : (LoadProverbs proverbDataModel s).fst = none :=
        (LoadProverbs_fst_none_iff proverbDataModel s).mpr ⟨hmod_ne, hparse_ne⟩
      obtain ⟨hs1, _⟩ := LoadProverbs_success proverbDataModel s hfst
      have hlen1 : (LoadProverbs proverbDataModel s).snd.proverbs ≠ [] := by
        rw [hs1]
        exact hparse_ne
      have hr := RandomProverb_of_empty_ok proverbDataModel s idx _ hp
        (by rw [← hfst]) hlen1
      have hmem : (RandomProverb proverbDataModel s idx).fst
          ∈ (LoadProverbs proverbDataModel s).snd.proverbs := by
        rw [hr]
        exact getD_mod_mem hlen1 idx
      rw [hs1] at hmem
      intro heq
      rw [heq] at hmem
      exact hsent hmem
    · have hp' : s.proverbs ≠ [] := by
        rw [hm]
        exact hparse_ne
      have hr := RandomProverb_of_loaded proverbDataModel s idx hp'
      have hmem : (RandomProverb proverbDataModel s idx).fst ∈ s.proverbs := by
        rw [hr]
        exact getD_mod_mem hp' idx
      rw [hm] at hmem
      intro heq
      rw [heq] at hmem
      exact hsent hmem

set_option maxRecDepth 100000 in
/-- Witness for C10 on the fresh service with the modelled resource. -/
theorem randomProverb_fallback_unreachable_witness :
    (LoadProverbs proverbDataModel NewService).fst = none ∧
    (LoadProverbs proverbDataModel NewService).snd.proverbs ≠ [] ∧
    randomProverbBranch proverbDataModel NewService ≠ RPBranch.noProverbs ∧
    (RandomProverb proverbDataModel NewService 0).fst ≠ "No proverbs available" := by
  have h1 : (LoadProverbs proverbDataModel NewService).fst = none := by decide
  exact ⟨h1,
    (randomProverb_fallback_unreachable proverbDataModel NewService 0).1 h1,
    (randomProverb_fallback_unreachable proverbDataModel NewService 0).2.1,
    (randomProverb_fallback_unreachable proverbDataModel NewService 0).2.2 (Or.inl rfl)⟩

end GoPher
